import Mathlib

/-!
# Verification of the phase-synchronized look-ahead scheduler of the "2/1" player

This file gives a shallow embedding, over exact rational arithmetic, of the
timing core of the "2/1" web player: the `AudioEngine` class of
`scripts/audio-engine.js` (voice table, random phase offsets, look-ahead note
scheduler, play/pause transport) and the phase computation of the render loop
in `scripts/visualization.js` (`drawDots`).  Times and offsets are modelled as
rationals; JavaScript `Math.floor` on nonnegative reals is `Int.floor`, and the
JavaScript remainder operator `%` is modelled exactly (truncated division).
The theorems at the end of the file settle the specification claims about the
scheduler arithmetic, the phase sampler, and the transport state machine.
-/

namespace Eno

/-- A voice record as stored by the `AudioEngine` constructor
(`audio-engine.js` lines 29-79): note name, base frequency, shifted frequency,
loop duration in seconds and display color.  The `randomOffset` field is
absent (`none`) until `generateRandomStartTimes` assigns it, mirroring the
JavaScript property that is `undefined` until first written. -/
structure Voice where
  note : String
  baseFrequency : ℚ
  frequency : ℚ
  loopDuration : ℚ
  color : String
  randomOffset : Option ℚ := none
deriving Repr, DecidableEq

/-- Source: `this.octaveShift = -1` (line 11). -/
def octaveShift : ℤ := -1

/-- Source: `const octaveMultiplier = Math.pow(2, this.octaveShift)` (line 26). -/
def octaveMultiplier : ℚ := (2 : ℚ) ^ octaveShift

/-- The seven compiled-in voices of the constructor (lines 29-79), with the
original base frequencies and the exact loop durations, and the shifted
frequency `baseFrequency * octaveMultiplier`.  No offset is assigned yet. -/
def initialVoices : List Voice :=
  [ { note := "High A♭", baseFrequency := 830.61,
      frequency := 830.61 * octaveMultiplier, loopDuration := 17.8,
      color := "#E57373", randomOffset := none },
    { note := "C", baseFrequency := 523.25,
      frequency := 523.25 * octaveMultiplier, loopDuration := 20.1,
      color := "#FFB74D", randomOffset := none },
    { note := "D♭", baseFrequency := 554.37,
      frequency := 554.37 * octaveMultiplier, loopDuration := 31.8,
      color := "#FFF176", randomOffset := none },
    { note := "High F", baseFrequency := 698.46,
      frequency := 698.46 * octaveMultiplier, loopDuration := 19.6,
      color := "#AED581", randomOffset := none },
    { note := "E♭", baseFrequency := 622.25,
      frequency := 622.25 * octaveMultiplier, loopDuration := 16.2,
      color := "#4FC3F7", randomOffset := none },
    { note := "Low A♭", baseFrequency := 415.30,
      frequency := 415.30 * octaveMultiplier, loopDuration := 21.3,
      color := "#7986CB", randomOffset := none },
    { note := "Low F", baseFrequency := 349.23,
      frequency := 349.23 * octaveMultiplier, loopDuration := 24.7,
      color := "#BA68C8", randomOffset := none } ]

/-- Source: `this.lookahead = 0.1` (line 93): the scheduler re-arm cadence in seconds
(the tick interval, despite its name in the source). -/
def lookahead : ℚ := 0.1

/-- Source: `this.scheduleAheadTime = 0.5` (line 94): the look-ahead window in
seconds. -/
def scheduleAheadTime : ℚ := 0.5

/-- Source: `voice.randomOffset || 0` (lines 499, 581): an absent offset reads as `0`.
(A stored offset of `0` is falsy in JavaScript and also reads as `0`, which
coincides with `getD`.) -/
def getOffset (v : Voice) : ℚ := v.randomOffset.getD 0

/-- Source: `const adjustedElapsedTime = (currentTime - this.startTime) + randomOffset`
(line 584). -/
def adjustedElapsedTime (startTime offset now : ℚ) : ℚ :=
  (now - startTime) + offset

/-- Source: `const completeLoops = Math.floor(adjustedElapsedTime / voice.loopDuration)`
(line 587). -/
def completeLoops (startTime offset P now : ℚ) : ℤ :=
  ⌊adjustedElapsedTime startTime offset now / P⌋

/-- Source: `const nextNoteTime = this.startTime + (completeLoops + 1) * voice.loopDuration - randomOffset`
(line 591). -/
def nextNoteTime (startTime offset P now : ℚ) : ℚ :=
  startTime + ((completeLoops startTime offset P now : ℚ) + 1) * P - offset

/-- The per-voice commit decision of one scheduler tick (lines 596-607):
`if (nextNoteTime < lookAheadEnd)` with `lookAheadEnd = currentTime +
this.scheduleAheadTime` (line 572), the note is handed to `playNote` at
`nextNoteTime`; otherwise nothing is scheduled for this voice. -/
def scheduleVoiceTick (startTime offset P now : ℚ) : Option ℚ :=
  if nextNoteTime startTime offset P now < now + scheduleAheadTime then
    some (nextNoteTime startTime offset P now)
  else
    none

/-- Source: `const timeUntilCrossing = voice.loopDuration - randomOffset` (line 503)
from `scheduleInitialNotes`. -/
def timeUntilCrossing (offset P : ℚ) : ℚ := P - offset

/-- The per-voice decision of the bootstrap pass `scheduleInitialNotes`
(lines 497-523): the first crossing `this.startTime + timeUntilCrossing` is
committed iff `timeUntilCrossing < this.scheduleAheadTime` (line 511). -/
def scheduleInitialVoice (startTime offset P : ℚ) : Option ℚ :=
  if timeUntilCrossing offset P < scheduleAheadTime then
    some (startTime + timeUntilCrossing offset P)
  else
    none

/-- Time `T` is a phase-crossing instant for a voice with the given origin, offset
and period: the adjusted elapsed time at `T` is an integer number of loops,
i.e. `T = origin + k * P - offset` for some integer `k`. -/
def isCrossing (startTime offset P T : ℚ) : Prop :=
  ∃ k : ℤ, T = startTime + k * P - offset

/-- Time `T` is an instant the scheduler can commit for a voice: some tick at a
time `now` not before playback start computes `nextNoteTime = T` and finds it
inside the look-ahead window. -/
def isCommittedTrigger (startTime offset P T : ℚ) : Prop :=
  ∃ now : ℚ, startTime ≤ now ∧ scheduleVoiceTick startTime offset P now = some T

/-- The JavaScript remainder operator `%` on numbers:
`x % y = x - y * trunc(x / y)` (remainder of truncated division, taking the
sign of the dividend).  Truncation is `Int.floor` for a nonnegative quotient
and `Int.ceil` for a negative one.  (`y = 0` gives `NaN` in JavaScript; every
use below has a positive loop duration for `y`.) -/
def jsMod (x y : ℚ) : ℚ :=
  x - y * (if 0 ≤ x / y then (⌊x / y⌋ : ℚ) else (⌈x / y⌉ : ℚ))

/-- The phase value the render loop computes for a voice at absolute clock
time `t` while playing (`visualization.js` lines 783-793 composed with
`getCurrentTime`, line 628): with `currentTime = t - origin`,
`loopPosition = 1 - ((currentTime + randomOffset) % loopDuration) / loopDuration`. -/
def phaseOf (origin offset P t : ℚ) : ℚ :=
  1 - jsMod (t - origin + offset) P / P

/-- The dot position drawn while idle (`visualization.js` lines 753-755):
`1 - (voice.randomOffset || 0) / voice.loopDuration`. -/
def idleLoopPosition (v : Voice) : ℚ :=
  1 - getOffset v / v.loopDuration

/-- The dot position drawn while playing (`visualization.js` lines 783-793)
as a function of `currentTime = audioEngine.getCurrentTime()`:
`1 - ((currentTime + randomOffset) % loopDuration) / loopDuration`. -/
def playingLoopPosition (v : Voice) (currentTime : ℚ) : ℚ :=
  1 - jsMod (currentTime + getOffset v) v.loopDuration / v.loopDuration

/-- Source: `generateRandomStartTimes` (lines 462-486), with the stream of
`Math.random()` draws made explicit as a function of the voice index: a voice
gets the fresh offset `rand i * loopDuration` iff `forceRegenerate` is true or
it has no offset yet; otherwise it is kept unchanged. -/
def generateAux (rand : ℕ → ℚ) (forceRegenerate : Bool) :
    ℕ → List Voice → List Voice
  | _, [] => []
  | i, v :: vs =>
      (if forceRegenerate || v.randomOffset.isNone then
        { v with randomOffset := some (rand i * v.loopDuration) }
      else
        v) :: generateAux rand forceRegenerate (i + 1) vs

/-- Source: `generateRandomStartTimes(forceRegenerate = false)` over a voice list,
starting the index stream at `0`; it returns the updated voices
(`return this.voices`, line 485). -/
def generateRandomStartTimes (voices : List Voice) (rand : ℕ → ℚ)
    (forceRegenerate : Bool) : List Voice :=
  generateAux rand forceRegenerate 0 voices

/-- The mutable `AudioEngine` playback state: the voice list, `this.isPlaying`
(line 88), `this.startTime` (line 89), the `this.scheduledNotes` array of
in-flight sources (line 90, modelled by their scheduled start times) and
`this.schedulerTimer` (line 95, `some t` names a pending re-arm armed at
tick time `t`). -/
structure EngineState where
  voices : List Voice
  isPlaying : Bool
  startTime : ℚ
  scheduledNotes : List ℚ
  schedulerTimer : Option ℚ
deriving Repr, DecidableEq

/-- One run of `scheduleNotes` (lines 570-620) at audio-clock time `now`: each
voice whose `nextNoteTime` falls inside the look-ahead window has a note
source pushed onto `scheduledNotes` (via `playNote`, line 400), and the
scheduler re-arms itself `lookahead` seconds later (lines 613-619). -/
def scheduleNotesTick (now : ℚ) (st : EngineState) : EngineState :=
  { st with
    scheduledNotes := st.scheduledNotes ++
      st.voices.filterMap fun v =>
        scheduleVoiceTick st.startTime (getOffset v) v.loopDuration now,
    schedulerTimer := some (now + lookahead) }

/-- Source: `scheduleInitialNotes` (lines 493-524) as a state transformer: each voice
whose first crossing is inside the window has a note source pushed. -/
def scheduleInitialNotes (st : EngineState) : EngineState :=
  { st with
    scheduledNotes := st.scheduledNotes ++
      st.voices.filterMap fun v =>
        scheduleInitialVoice st.startTime (getOffset v) v.loopDuration }

/-- Source: `startPlayback` (lines 430-455) at audio-clock time `now`: sets
`isPlaying`, records `startTime = now`, clears `scheduledNotes`, runs the
bootstrap pass `scheduleInitialNotes` and then the first `scheduleNotes`
tick. -/
def startPlayback (now : ℚ) (st : EngineState) : EngineState :=
  scheduleNotesTick now (scheduleInitialNotes
    { st with isPlaying := true, startTime := now, scheduledNotes := [] })

/-- Source: `play` (lines 408-428): `if (this.isPlaying) return;` and otherwise start
playback (the suspended-context branch resolves to the same
`startPlayback`). -/
def play (now : ℚ) (st : EngineState) : EngineState :=
  if st.isPlaying then st else startPlayback now st

/-- Source: `pause` (lines 529-554): a no-op while idle; while playing it clears
`isPlaying`, cancels the pending scheduler re-arm (`clearTimeout`,
lines 535-538), calls `stop()` on every in-flight source and empties
`scheduledNotes` (lines 541-548).  The second component returns the sources
that received `stop()`. -/
def pause (st : EngineState) : EngineState × List ℚ :=
  if st.isPlaying then
    ({ st with isPlaying := false, schedulerTimer := none, scheduledNotes := [] },
      st.scheduledNotes)
  else
    (st, [])

/-- The body of the `setTimeout` callback armed by `scheduleNotes`
(lines 613-619): run the next tick only `if (this.isPlaying)`. -/
def schedulerTimerCallback (now : ℚ) (st : EngineState) : EngineState :=
  if st.isPlaying then scheduleNotesTick now st else st

/-- Source: `getCurrentTime` (lines 626-629): `0` while not playing, otherwise
`this.audioContext.currentTime - this.startTime`. -/
def getCurrentTime (st : EngineState) (now : ℚ) : ℚ :=
  if st.isPlaying then now - st.startTime else 0

/-- The "C" voice (loop duration 20.1 s) carrying the reachable random offset
19.7 s (random draw 197/201). -/
def voiceC1 : Voice :=
  { note := "C", baseFrequency := 523.25,
    frequency := 523.25 * octaveMultiplier, loopDuration := 20.1,
    color := "#FFB74D", randomOffset := some 19.7 }

/-- The "C" voice already carrying the offset 5 s, for the C6 witness. -/
def voiceC6 : Voice :=
  { note := "C", baseFrequency := 523.25,
    frequency := 523.25 * octaveMultiplier, loopDuration := 20.1,
    color := "#FFB74D", randomOffset := some 5 }

/-- The "C" voice with offset 5, used by the C7 witness state. -/
def voiceC7 : Voice :=
  { note := "C", baseFrequency := 523.25,
    frequency := 523.25 * octaveMultiplier, loopDuration := 20.1,
    color := "#FFB74D", randomOffset := some 5 }

/-- A Running engine state with one in-flight note and an armed timer, for the
C7 witness. -/
def stateC7 : EngineState :=
  { voices := [voiceC7], isPlaying := true, startTime := 2,
    scheduledNotes := [15.1], schedulerTimer := some 2.1 }

/-- A fresh one-voice list for the C8 witness and counterexample. -/
def voiceC8 : Voice :=
  { note := "C", baseFrequency := 523.25,
    frequency := 523.25 * octaveMultiplier, loopDuration := 20.1,
    color := "#FFB74D", randomOffset := none }

/-- Voice `voiceC8` after the generator stored the in-range offset 10.05
(draw 1/2). -/
def voiceC8filled : Voice :=
  { note := "C", baseFrequency := 523.25,
    frequency := 523.25 * octaveMultiplier, loopDuration := 20.1,
    color := "#FFB74D", randomOffset := some 10.05 }

/-- A Running engine state with an empty voice list, for the C9 witness. -/
def stateC9run : EngineState :=
  { voices := [], isPlaying := true, startTime := 0,
    scheduledNotes := [], schedulerTimer := some 1 }

/-- An Idle engine state, for the C9 witness. -/
def stateC9idle : EngineState :=
  { voices := [], isPlaying := false, startTime := 0,
    scheduledNotes := [], schedulerTimer := none }

/-- An Idle engine state, for the C10 witness. -/
def stateC10 : EngineState :=
  { voices := [], isPlaying := false, startTime := 7, scheduledNotes := [],
    schedulerTimer := none }

/-- The "C" voice with offset 5, for the C10 witness. -/
def voiceC10 : Voice :=
  { note := "C", baseFrequency := 523.25,
    frequency := 523.25 * octaveMultiplier, loopDuration := 20.1,
    color := "#FFB74D", randomOffset := some 5 }

/-! ## Helper lemmas -/

lemma nextNoteTime_isCrossing (startTime offset P now : ℚ) :
    isCrossing startTime offset P (nextNoteTime startTime offset P now) :=
  ⟨completeLoops startTime offset P now + 1, by
    unfold nextNoteTime
    push_cast
    ring⟩

lemma lt_nextNoteTime {P : ℚ} (hP : 0 < P) (startTime offset now : ℚ) :
    now < nextNoteTime startTime offset P now := by
  have h := Int.lt_floor_add_one (adjustedElapsedTime startTime offset now / P)
  rw [div_lt_iff hP] at h
  unfold nextNoteTime completeLoops adjustedElapsedTime at *
  nlinarith

lemma nextNoteTime_min {startTime offset P now T : ℚ} (hP : 0 < P)
    (hc : isCrossing startTime offset P T) (hT : now < T) :
    nextNoteTime startTime offset P now ≤ T := by
  obtain ⟨k, rfl⟩ := hc
  have h1 : adjustedElapsedTime startTime offset now / P < (k : ℚ) := by
    rw [div_lt_iff hP]
    unfold adjustedElapsedTime
    linarith
  have h2 : completeLoops startTime offset P now < k := Int.floor_lt.mpr h1
  have h3 : (completeLoops startTime offset P now : ℚ) + 1 ≤ (k : ℚ) := by
    have := Int.add_one_le_iff.mpr h2
    exact_mod_cast this
  unfold nextNoteTime
  nlinarith

lemma nextNoteTime_persist {startTime offset P now now' : ℚ} (hP : 0 < P)
    (h1 : now ≤ now') (h2 : now' < nextNoteTime startTime offset P now) :
    nextNoteTime startTime offset P now' = nextNoteTime startTime offset P now := by
  have h2' : now' - startTime + offset <
      ((⌊((now - startTime) + offset) / P⌋ : ℚ) + 1) * P := by
    unfold nextNoteTime completeLoops adjustedElapsedTime at h2
    linarith
  have hl : (⌊((now - startTime) + offset) / P⌋ : ℚ) * P ≤ (now - startTime) + offset := by
    have h := Int.floor_le (((now - startTime) + offset) / P)
    rw [le_div_iff hP] at h
    exact h
  have hfl : ⌊((now' - startTime) + offset) / P⌋ = ⌊((now - startTime) + offset) / P⌋ := by
    apply Int.floor_eq_iff.mpr
    constructor
    · rw [le_div_iff hP]
      linarith
    · rw [div_lt_iff hP]
      linarith
  unfold nextNoteTime completeLoops adjustedElapsedTime
  rw [hfl]

lemma jsMod_nonneg_eq {x y : ℚ} (hx : 0 ≤ x) (hy : 0 < y) :
    jsMod x y = x - y * (⌊x / y⌋ : ℚ) := by
  unfold jsMod
  rw [if_pos (div_nonneg hx hy.le)]

lemma jsMod_range {x y : ℚ} (hx : 0 ≤ x) (hy : 0 < y) :
    0 ≤ jsMod x y ∧ jsMod x y < y := by
  rw [jsMod_nonneg_eq hx hy]
  constructor
  · have h := Int.floor_le (x / y)
    rw [le_div_iff hy] at h
    nlinarith
  · have h := Int.lt_floor_add_one (x / y)
    rw [div_lt_iff hy] at h
    nlinarith

lemma phase_int_iff {origin offset P T : ℚ} (hP : 0 < P)
    (he : 0 ≤ T - origin + offset) :
    (∃ k : ℤ, phaseOf origin offset P T = (k : ℚ)) ↔
      (∃ m : ℤ, T - origin + offset = (m : ℚ) * P) := by
  unfold phaseOf
  rw [jsMod_nonneg_eq he hP]
  constructor
  · rintro ⟨k, hk⟩
    refine ⟨⌊(T - origin + offset) / P⌋ + 1 - k, ?_⟩
    have hP' : P ≠ 0 := ne_of_gt hP
    field_simp at hk
    push_cast
    nlinarith [hk]
  · rintro ⟨m, hm⟩
    refine ⟨1, ?_⟩
    have hfl : ⌊(T - origin + offset) / P⌋ = m := by
      rw [hm, mul_div_assoc, div_self (ne_of_gt hP), mul_one, Int.floor_intCast]
    rw [hfl, hm]
    have hP' : P ≠ 0 := ne_of_gt hP
    field_simp
    ring

lemma committed_isCrossing {origin offset P T : ℚ}
    (h : isCommittedTrigger origin offset P T) : isCrossing origin offset P T := by
  obtain ⟨now, _, hs⟩ := h
  unfold scheduleVoiceTick at hs
  by_cases hcond : nextNoteTime origin offset P now < now + scheduleAheadTime
  · rw [if_pos hcond] at hs
    exact (Option.some.inj hs) ▸ nextNoteTime_isCrossing origin offset P now
  · rw [if_neg hcond] at hs
    exact absurd hs (by simp)

lemma committed_of_crossing {origin offset P T : ℚ} (hP : 0 < P) {k : ℤ}
    (hT : T = origin + (k : ℚ) * P - offset) (hgt : origin < T) :
    isCommittedTrigger origin offset P T := by
  have hδpos : 0 < min (1/4 : ℚ) (P/2) := lt_min (by norm_num) (by linarith)
  have hδle : min (1/4 : ℚ) (P/2) ≤ 1/4 := min_le_left _ _
  have hδleP : min (1/4 : ℚ) (P/2) ≤ P/2 := min_le_right _ _
  set δ : ℚ := min (1/4) (P/2)
  refine ⟨max origin (T - δ), le_max_left _ _, ?_⟩
  set now := max origin (T - δ) with hnowdef
  have hnowlt : now < T := max_lt hgt (by linarith)
  have hnowge : T - δ ≤ now := le_max_right _ _
  have hfloor : completeLoops origin offset P now = k - 1 := by
    unfold completeLoops adjustedElapsedTime
    apply Int.floor_eq_iff.mpr
    constructor
    · rw [le_div_iff hP]
      push_cast
      nlinarith
    · push_cast
      rw [div_lt_iff hP]
      nlinarith
  have hnext : nextNoteTime origin offset P now = T := by
    unfold nextNoteTime
    rw [hfloor]
    push_cast
    rw [hT]
    ring
  have hsa : scheduleAheadTime = 1/2 := by norm_num [scheduleAheadTime]
  have hwin : nextNoteTime origin offset P now < now + scheduleAheadTime := by
    rw [hnext, hsa]
    linarith
  unfold scheduleVoiceTick
  rw [if_pos hwin, hnext]

lemma generateAux_all_isSome (rand : ℕ → ℚ) (force : Bool) :
    ∀ (i : ℕ) (vs : List Voice) (v : Voice),
      v ∈ generateAux rand force i vs → v.randomOffset.isSome := by
  intro i vs
  induction vs generalizing i with
  | nil =>
    intro v hv
    simp [generateAux] at hv
  | cons w ws ih =>
    intro v hv
    simp only [generateAux, List.mem_cons] at hv
    rcases hv with h | h
    · subst h
      split
      · simp
      · rename_i hc
        simp only [Bool.or_eq_true, not_or] at hc
        cases hw : w.randomOffset with
        | none => simp [Option.isNone] at hc; exact absurd (hc.2) (by simp [hw])
        | some o => simp [hw]
    · exact ih (i + 1) v h

lemma generateAux_noop (rand : ℕ → ℚ) :
    ∀ (i : ℕ) (vs : List Voice), (∀ v ∈ vs, v.randomOffset.isSome) →
      generateAux rand false i vs = vs := by
  intro i vs
  induction vs generalizing i with
  | nil => intro _; rfl
  | cons w ws ih =>
    intro h
    have hw : w.randomOffset.isSome :=
      h w (List.mem_cons_self w ws)
    have hws : ∀ v ∈ ws, v.randomOffset.isSome :=
      fun v hv => h v (List.mem_cons_of_mem w hv)
    have hnone : w.randomOffset.isNone = false := by
      cases hw2 : w.randomOffset with
      | none => rw [hw2] at hw; simp at hw
      | some o => simp [hw2]
    simp only [generateAux, Bool.false_or, hnone, if_neg Bool.false_ne_true]
    rw [ih (i + 1) hws]

lemma generateAux_offset_range (rand : ℕ → ℚ) (force : Bool)
    (hrand : ∀ i, 0 ≤ rand i ∧ rand i < 1) :
    ∀ (i : ℕ) (vs : List Voice),
      (∀ v ∈ vs, 0 < v.loopDuration) →
      (∀ v ∈ vs, ∀ o, v.randomOffset = some o → 0 ≤ o ∧ o < v.loopDuration) →
      ∀ v ∈ generateAux rand force i vs, ∀ o, v.randomOffset = some o →
        0 ≤ o ∧ o < v.loopDuration := by
  intro i vs
  induction vs generalizing i with
  | nil =>
    intro _ _ v hv
    simp [generateAux] at hv
  | cons w ws ih =>
    intro hpos hrange v hv o ho
    simp only [generateAux, List.mem_cons] at hv
    have hwpos : 0 < w.loopDuration := hpos w (List.mem_cons_self w ws)
    rcases hv with h | h
    · by_cases hc : (force || w.randomOffset.isNone) = true
      · rw [if_pos hc] at h
        subst h
        dsimp only at ho ⊢
        have hoo : rand i * w.loopDuration = o := Option.some.inj ho
        subst hoo
        constructor
        · exact mul_nonneg (hrand i).1 hwpos.le
        · calc rand i * w.loopDuration < 1 * w.loopDuration :=
              mul_lt_mul_of_pos_right (hrand i).2 hwpos
            _ = w.loopDuration := one_mul _
      · rw [if_neg hc] at h
        subst h
        exact hrange _ (List.mem_cons_self _ _) o ho
    · exact ih (i + 1)
        (fun u hu => hpos u (List.mem_cons_of_mem w hu))
        (fun u hu => hrange u (List.mem_cons_of_mem w hu)) v h o ho

/-! ## Claim theorems, witnesses and counterexamples -/

/-- Claim C1: the scheduler has no bookkeeping of committed loop iterations, so
a trigger instant that stays inside the look-ahead window across consecutive
ticks is recommitted on every one of them: with origin 0, offset 5 and period
20.1 the instant 15.1 is committed both at the tick at 14.7 and at the next
tick at 14.8 = 14.7 + lookahead (two committed instants 0 s apart, far closer
than loopPeriod - ε), and the bootstrap pass plus the first scheduler tick
likewise both commit the first crossing of a voice with offset 19.7. -/
theorem scheduler_recommits_same_instant :
    scheduleVoiceTick 0 5 20.1 14.7 = some 15.1
    ∧ scheduleVoiceTick 0 5 20.1 14.8 = some 15.1
    ∧ (14.8 : ℚ) = 14.7 + lookahead
    ∧ scheduleInitialVoice 0 19.7 20.1 = some 0.4
    ∧ scheduleVoiceTick 0 19.7 20.1 0 = some 0.4
    ∧ (startPlayback 0
        { voices := [voiceC1], isPlaying := false, startTime := 3,
          scheduledNotes := [], schedulerTimer := none }).scheduledNotes
        = [0.4, 0.4] := by
  refine ⟨?_, ?_, by norm_num [lookahead], ?_, ?_, ?_⟩
  · norm_num [scheduleVoiceTick, nextNoteTime, completeLoops, adjustedElapsedTime,
      scheduleAheadTime]
  · norm_num [scheduleVoiceTick, nextNoteTime, completeLoops, adjustedElapsedTime,
      scheduleAheadTime]
  · norm_num [scheduleInitialVoice, timeUntilCrossing, scheduleAheadTime]
  · norm_num [scheduleVoiceTick, nextNoteTime, completeLoops, adjustedElapsedTime,
      scheduleAheadTime]
  · norm_num [startPlayback, scheduleNotesTick, scheduleInitialNotes, voiceC1,
      scheduleInitialVoice, scheduleVoiceTick, nextNoteTime, completeLoops,
      adjustedElapsedTime, timeUntilCrossing, scheduleAheadTime, getOffset,
      List.filterMap]

/-- Claim C2 (amended): while Running the scheduler computes the next trigger
instant by the formula `origin + (floor(((now - origin) + phaseOffset) /
loopPeriod) + 1) * loopPeriod - phaseOffset`; that instant is a phase
crossing, is strictly greater than `now`, and is the smallest crossing
strictly greater than `now` (when `now` is itself a crossing the formula
skips it and yields the following one); with loopPeriod 20.1, phaseOffset 5
and origin 0 the first trigger is at 15.1 and the second at 35.2. -/
theorem nextTrigger_formula_and_minimality (startTime offset P now : ℚ)
    (hP : 0 < P) :
    nextNoteTime startTime offset P now
        = startTime + ((⌊((now - startTime) + offset) / P⌋ : ℚ) + 1) * P - offset
    ∧ isCrossing startTime offset P (nextNoteTime startTime offset P now)
    ∧ now < nextNoteTime startTime offset P now
    ∧ (∀ T, isCrossing startTime offset P T → now < T →
        nextNoteTime startTime offset P now ≤ T)
    ∧ nextNoteTime 0 5 20.1 0 = 15.1
    ∧ nextNoteTime 0 5 20.1 15.1 = 35.2 := by
  refine ⟨rfl, nextNoteTime_isCrossing startTime offset P now,
    lt_nextNoteTime hP startTime offset now,
    fun T hc hT => nextNoteTime_min hP hc hT, ?_, ?_⟩
  · norm_num [nextNoteTime, completeLoops, adjustedElapsedTime]
  · norm_num [nextNoteTime, completeLoops, adjustedElapsedTime]

/-- Witness for the C2 theorem at loopPeriod 20.1, offset 5, origin 0,
now 0. -/
theorem nextTrigger_formula_witness :
    (0 : ℚ) < 20.1 ∧ nextNoteTime 0 5 20.1 0 = 15.1 :=
  ⟨by norm_num,
    (nextTrigger_formula_and_minimality 0 5 20.1 0 (by norm_num)).2.2.2.2.1⟩

/-- Claim C2 counterexample: at `now = 15.1`, itself a phase crossing of the
voice with loopPeriod 20.1, phaseOffset 5 and origin 0, the crossing 15.1 is
a time ≥ now, yet the formula yields 35.2 > 15.1 — so the computed instant is
not the smallest crossing time ≥ now. -/
theorem nextTrigger_not_min_at_crossing :
    isCrossing 0 5 20.1 15.1 ∧ (15.1 : ℚ) ≤ 15.1
    ∧ nextNoteTime 0 5 20.1 15.1 = 35.2 ∧ (15.1 : ℚ) < 35.2 := by
  refine ⟨⟨1, by norm_num⟩, le_refl _, ?_, by norm_num⟩
  norm_num [nextNoteTime, completeLoops, adjustedElapsedTime]

/-- Claim C3 (amended): for every voice and every time strictly after the
origin, the render-side phase is an integer (0 mod 1) exactly at the instants
the scheduler can commit for that voice — the two computations are
algebraically consistent views of the same elapsed-time formula.  (At
`T = origin` itself, reachable only with offset 0, the phase is 0 mod 1 but
the scheduler never commits `origin`.) -/
theorem phase_trigger_consistency (origin offset P T : ℚ) (hP : 0 < P)
    (hoff : 0 ≤ offset) (hgt : origin < T) :
    (∃ k : ℤ, phaseOf origin offset P T = (k : ℚ)) ↔
      isCommittedTrigger origin offset P T := by
  have he : 0 ≤ T - origin + offset := by linarith
  rw [phase_int_iff hP he]
  constructor
  · rintro ⟨m, hm⟩
    exact committed_of_crossing hP (k := m) (by linarith) hgt
  · intro h
    obtain ⟨k, hk⟩ := committed_isCrossing h
    exact ⟨k, by rw [hk]; ring⟩

/-- Witness for the C3 theorem: for the voice with loopPeriod 20.1, offset 5
and origin 0, the phase is an integer at 15.1, hence 15.1 is a committable
trigger instant. -/
theorem phase_trigger_consistency_witness :
    isCommittedTrigger 0 5 20.1 15.1 :=
  (phase_trigger_consistency 0 5 20.1 15.1 (by norm_num) (by norm_num)
    (by norm_num)).mp ⟨1, by norm_num [phaseOf, jsMod]⟩

/-- Claim C3 counterexample: with offset 0 the time `T = origin` satisfies
`T ≥ origin` and has phase 0 (mod 1), yet no scheduler tick at or after the
origin ever commits it, because every computed trigger instant is strictly
in the future. -/
theorem phase_zero_not_committed_at_origin :
    (∃ k : ℤ, phaseOf 0 0 2 0 = (k : ℚ)) ∧ (0 : ℚ) ≤ 0
    ∧ ¬ isCommittedTrigger 0 0 2 0 := by
  refine ⟨⟨1, by norm_num [phaseOf, jsMod]⟩, le_refl _, ?_⟩
  rintro ⟨now, hnow, hs⟩
  unfold scheduleVoiceTick at hs
  by_cases hcond : nextNoteTime 0 0 2 now < now + scheduleAheadTime
  · rw [if_pos hcond] at hs
    have h := Option.some.inj hs
    have h2 := lt_nextNoteTime (by norm_num : (0:ℚ) < 2) 0 0 now
    rw [h] at h2
    linarith
  · rw [if_neg hcond] at hs
    exact absurd hs (by simp)

/-- Claim C4 (amended): for every voice and for every time at or after the
origin, the phase value computed by the render loop lies in the half-open
interval (0, 1] — it reaches 1 exactly at the crossings, and never 0. -/
theorem phase_range (origin offset P t : ℚ) (hP : 0 < P) (hoff : 0 ≤ offset)
    (ht : origin ≤ t) :
    0 < phaseOf origin offset P t ∧ phaseOf origin offset P t ≤ 1 := by
  have he : 0 ≤ t - origin + offset := by linarith
  obtain ⟨h1, h2⟩ := jsMod_range he hP
  unfold phaseOf
  constructor
  · have h3 : jsMod (t - origin + offset) P / P < 1 := by
      rw [div_lt_one hP]
      exact h2
    linarith
  · have h3 : 0 ≤ jsMod (t - origin + offset) P / P := div_nonneg h1 hP.le
    linarith

/-- Witness for the C4 theorem at origin 0, offset 5, loopPeriod 20.1,
time 10. -/
theorem phase_range_witness :
    0 < phaseOf 0 5 20.1 10 ∧ phaseOf 0 5 20.1 10 ≤ 1 :=
  phase_range 0 5 20.1 10 (by norm_num) (by norm_num) (by norm_num)

/-- Claim C4 counterexample: at a crossing the rendered phase equals 1, which
is outside the claimed half-open interval [0, 1). -/
theorem phase_value_one_at_crossing :
    phaseOf 0 0 2 0 = 1 ∧ ¬ (phaseOf 0 0 2 0 < 1) := by
  constructor
  · norm_num [phaseOf, jsMod]
  · norm_num [phaseOf, jsMod]

/-- Claim C5: the re-arm cadence is smaller than the look-ahead window
(0.1 s < 0.5 s), the computed next trigger instant of a voice is unchanged by
any later tick that still precedes it (so no instant can be skipped between
ticks), and concretely a voice whose next trigger lies 0.55 s after `now` is
not committed on the current tick but is committed on the next tick 0.1 s
later. -/
theorem tick_window_no_skip :
    lookahead < scheduleAheadTime
    ∧ (∀ startTime offset P now nowNext : ℚ, 0 < P → now ≤ nowNext →
        nowNext < nextNoteTime startTime offset P now →
        nextNoteTime startTime offset P nowNext
          = nextNoteTime startTime offset P now)
    ∧ (∀ startTime offset P now : ℚ, 0 < P →
        nextNoteTime startTime offset P now = now + 0.55 →
        scheduleVoiceTick startTime offset P now = none
        ∧ scheduleVoiceTick startTime offset P (now + lookahead)
            = some (now + 0.55)) := by
  refine ⟨by norm_num [lookahead, scheduleAheadTime],
    fun startTime offset P now nowNext hP h1 h2 =>
      nextNoteTime_persist hP h1 h2, ?_⟩
  intro startTime offset P now hP heq
  have hpersist : nextNoteTime startTime offset P (now + lookahead)
      = now + 0.55 := by
    have h := @nextNoteTime_persist startTime offset P now (now + lookahead) hP
      (by norm_num [lookahead]) (by rw [heq]; norm_num [lookahead])
    rw [h, heq]
  refine ⟨?_, ?_⟩
  · unfold scheduleVoiceTick
    rw [if_neg]
    rw [heq]
    norm_num [scheduleAheadTime]
  · have hcond : nextNoteTime startTime offset P (now + lookahead)
        < (now + lookahead) + scheduleAheadTime := by
      rw [hpersist]
      have h : (0.55 : ℚ) < lookahead + scheduleAheadTime := by
        norm_num [lookahead, scheduleAheadTime]
      linarith
    unfold scheduleVoiceTick
    rw [if_pos hcond, hpersist]

/-- Witness for the C5 theorem: with origin 0, offset 5, loopPeriod 20.1 and
now = 14.55 the next trigger 15.1 = 14.55 + 0.55 is skipped by the current
tick and committed by the next one. -/
theorem tick_window_no_skip_witness :
    scheduleVoiceTick 0 5 20.1 14.55 = none
    ∧ scheduleVoiceTick 0 5 20.1 (14.55 + lookahead) = some (14.55 + 0.55) :=
  tick_window_no_skip.2.2 0 5 20.1 14.55 (by norm_num)
    (by norm_num [nextNoteTime, completeLoops, adjustedElapsedTime])

/-- Claim C6: the offset generator is idempotent without `forceRegenerate`:
a voice list in which every voice already has an offset is returned
unchanged, so calling `generateRandomStartTimes(false)` twice (with any two
random streams) is the same as calling it once. -/
theorem offset_generator_idempotent :
    (∀ (voices : List Voice) (rand : ℕ → ℚ),
      (∀ v ∈ voices, v.randomOffset.isSome) →
      generateRandomStartTimes voices rand false = voices)
    ∧ (∀ (voices : List Voice) (rand rand2 : ℕ → ℚ),
      generateRandomStartTimes (generateRandomStartTimes voices rand false)
          rand2 false
        = generateRandomStartTimes voices rand false) := by
  constructor
  · intro voices rand h
    exact generateAux_noop rand 0 voices h
  · intro voices rand rand2
    exact generateAux_noop rand2 0 _
      (fun v hv => generateAux_all_isSome rand false 0 voices v hv)

/-- Witness for the C6 theorem: a second call on a voice that already has an
offset keeps it unchanged. -/
theorem offset_generator_idempotent_witness :
    generateRandomStartTimes [voiceC6] (fun _ => 1/2) false = [voiceC6] :=
  offset_generator_idempotent.1 [voiceC6] (fun _ => 1/2)
    (by intro v hv; simp only [List.mem_cons, List.not_mem_nil, or_false] at hv;
        subst hv; simp [voiceC6])

/-- Claim C7: `pause()` while Running transitions to Idle, cancels the pending
scheduler re-arm (and the timer callback guard makes a stray tick a no-op),
stops exactly the in-flight scheduled note sources, empties the in-flight
list, and leaves every voice — in particular every `randomOffset` —
untouched. -/
theorem pause_effects (st : EngineState) (now : ℚ) (h : st.isPlaying = true) :
    (pause st).1.isPlaying = false
    ∧ (pause st).1.schedulerTimer = none
    ∧ (pause st).2 = st.scheduledNotes
    ∧ (pause st).1.scheduledNotes = []
    ∧ (pause st).1.voices = st.voices
    ∧ schedulerTimerCallback now (pause st).1 = (pause st).1 := by
  simp [pause, h, schedulerTimerCallback]

/-- Witness for the C7 theorem on a concrete Running state. -/
theorem pause_effects_witness :
    stateC7.isPlaying = true
    ∧ (pause stateC7).1.isPlaying = false
    ∧ (pause stateC7).1.schedulerTimer = none
    ∧ (pause stateC7).2 = [15.1]
    ∧ (pause stateC7).1.voices = stateC7.voices :=
  ⟨rfl, (pause_effects stateC7 3 rfl).1, (pause_effects stateC7 3 rfl).2.1,
    (pause_effects stateC7 3 rfl).2.2.1, (pause_effects stateC7 3 rfl).2.2.2.2.1⟩

/-- Claim C8 (amended): no fail-fast validation exists; instead the
configuration is valid by construction: every compiled-in voice has a
positive loop period, and whenever the random draws lie in [0, 1) and the
incoming offsets are in range, every offset stored by
`generateRandomStartTimes` lies in [0, loopPeriod). -/
theorem config_always_valid :
    (∀ v ∈ initialVoices, 0 < v.loopDuration)
    ∧ (∀ (voices : List Voice) (rand : ℕ → ℚ) (force : Bool),
        (∀ i, 0 ≤ rand i ∧ rand i < 1) →
        (∀ v ∈ voices, 0 < v.loopDuration) →
        (∀ v ∈ voices, ∀ o, v.randomOffset = some o →
          0 ≤ o ∧ o < v.loopDuration) →
        ∀ v ∈ generateRandomStartTimes voices rand force, ∀ o,
          v.randomOffset = some o → 0 ≤ o ∧ o < v.loopDuration) := by
  constructor
  · intro v hv
    simp only [initialVoices, List.mem_cons, List.not_mem_nil, or_false] at hv
    rcases hv with rfl | rfl | rfl | rfl | rfl | rfl | rfl <;> norm_num
  · intro voices rand force hrand hpos hrange
    exact generateAux_offset_range rand force hrand 0 voices hpos hrange

/-- Witness for the C8 theorem: a draw of 1/2 stores the in-range offset
10.05 for the 20.1 s voice. -/
theorem config_always_valid_witness :
    (0 : ℚ) ≤ 10.05 ∧ (10.05 : ℚ) < 20.1 := by
  have happ := config_always_valid.2 [voiceC8] (fun _ => 1/2) false
    (fun i => by norm_num)
    (by intro v hv
        simp only [List.mem_cons, List.not_mem_nil, or_false] at hv
        subst hv; norm_num [voiceC8])
    (by intro v hv o ho
        simp only [List.mem_cons, List.not_mem_nil, or_false] at hv
        subst hv; simp [voiceC8] at ho)
  have hgen : generateRandomStartTimes [voiceC8] (fun _ => 1/2) false
      = [voiceC8filled] := by
    simp only [generateRandomStartTimes, generateAux, voiceC8, voiceC8filled]
    norm_num
  have hmem : voiceC8filled ∈ generateRandomStartTimes [voiceC8]
      (fun _ => 1/2) false := by
    rw [hgen]
    exact List.mem_singleton.mpr rfl
  have h := happ voiceC8filled hmem 10.05 rfl
  exact ⟨h.1, by simpa [voiceC8filled] using h.2⟩

/-- Claim C8 counterexample: the offset assembly performs no range check — an
out-of-range draw of 2 is silently stored as offset 40.2 on the 20.1 s voice
and the updated voices are returned, with no failure path in the code. -/
theorem invalid_offset_silently_accepted :
    (generateRandomStartTimes [voiceC8] (fun _ => 2) false).map
        (fun v => v.randomOffset) = [some 40.2]
    ∧ ¬ ((40.2 : ℚ) < 20.1) := by
  constructor
  · simp only [generateRandomStartTimes, generateAux, voiceC8, List.map_cons,
      List.map_nil]
    norm_num
  · norm_num

/-- Claim C9: `play()` while already Running returns before touching any
state, and `pause()` while already Idle likewise returns immediately
(stopping nothing), so at most one scheduling loop can be active. -/
theorem play_pause_noop (st : EngineState) (now : ℚ) :
    (st.isPlaying = true → play now st = st)
    ∧ (st.isPlaying = false → pause st = (st, [])) := by
  constructor
  · intro h
    simp [play, h]
  · intro h
    simp [pause, h]

/-- Witness for the C9 theorem on concrete Running and Idle states. -/
theorem play_pause_noop_witness :
    play 5 stateC9run = stateC9run ∧ pause stateC9idle = (stateC9idle, []) :=
  ⟨(play_pause_noop stateC9run 5).1 rfl, (play_pause_noop stateC9idle 0).2 rfl⟩

/-- Claim C10: while not playing, `getCurrentTime` returns 0 whatever the
clock reads, and the idle drawing places a voice at `1 -
phaseOffset/loopPeriod`, which is exactly the playing-branch position at
current time 0, i.e. the phase sampled at `time = origin`. -/
theorem idle_position_matches_origin_phase (st : EngineState)
    (now origin : ℚ) (v : Voice) (hplay : st.isPlaying = false)
    (hP : 0 < v.loopDuration) (h0 : 0 ≤ getOffset v)
    (hlt : getOffset v < v.loopDuration) :
    getCurrentTime st now = 0
    ∧ idleLoopPosition v = 1 - getOffset v / v.loopDuration
    ∧ playingLoopPosition v (getCurrentTime st now) = idleLoopPosition v
    ∧ phaseOf origin (getOffset v) v.loopDuration origin = idleLoopPosition v := by
  have hct : getCurrentTime st now = 0 := by
    simp [getCurrentTime, hplay]
  have hmod : jsMod (getOffset v) v.loopDuration = getOffset v := by
    rw [jsMod_nonneg_eq h0 hP]
    have hfl : ⌊getOffset v / v.loopDuration⌋ = 0 := by
      rw [Int.floor_eq_zero_iff]
      constructor
      · exact div_nonneg h0 hP.le
      · rw [div_lt_one hP]
        exact hlt
    rw [hfl]
    push_cast
    ring
  refine ⟨hct, rfl, ?_, ?_⟩
  · rw [hct]
    unfold playingLoopPosition idleLoopPosition
    rw [zero_add, hmod]
  · unfold phaseOf idleLoopPosition
    have h : origin - origin + getOffset v = getOffset v := by ring
    rw [h, hmod]

/-- Witness for the C10 theorem on a concrete Idle state and voice. -/
theorem idle_position_matches_origin_phase_witness :
    getCurrentTime stateC10 9 = 0
    ∧ playingLoopPosition voiceC10 (getCurrentTime stateC10 9)
        = idleLoopPosition voiceC10
    ∧ phaseOf 0 (getOffset voiceC10) voiceC10.loopDuration 0
        = idleLoopPosition voiceC10 := by
  have h := idle_position_matches_origin_phase stateC10 9 0 voiceC10 rfl
    (by norm_num [voiceC10]) (by norm_num [voiceC10, getOffset])
    (by norm_num [voiceC10, getOffset])
  exact ⟨h.1, h.2.2.1, h.2.2.2⟩

end Eno
